import Mathlib

/-!
Shallow embedding of the weekly-report tool (src/collectors.ts, src/render.ts,
src/mailer.ts) and proofs about its reconciliation, rendering and mailing
logic.  Remote I/O (GitLab, Jira, SMTP) is modelled by passing the remote's
answers as explicit function parameters (oracles) and by recording, in the
returned value, which calls the code would have made; file-system state is an
explicit record threaded through the functions.  Timestamps are modelled as
integers (epoch instants): the code only ever compares parsed dates.
-/

namespace WeeklyReport

/-- Models `s.toLowerCase()` on the ASCII range (the code compares ASCII
usernames and e-mail addresses). -/
def lowerStr (s : String) : String := String.mk (s.data.map Char.toLower)

/-- Models `s.split('@')[0]`: everything before the first `@` (the whole
string when there is no `@`). -/
def localPart (s : String) : String :=
  String.mk (s.data.takeWhile (fun c => c ≠ '@'))

/-- Models `s.split('\n')[0]`: the first line of a commit message. -/
def firstLine (s : String) : String :=
  String.mk (s.data.takeWhile (fun c => c ≠ '\n'))

/-- Models `p` being a literal prefix of `s` (JS `startsWith`). -/
def strStartsWith (s p : String) : Bool := p.data.isPrefixOf s.data

/-- Models the test of `NOISE_COMMIT_RE = /^Merge (remote-tracking )?branch /`:
the regex is anchored at the start only, so it holds exactly when the string
starts with one of the two literal prefixes. -/
def noiseCommit (m : String) : Bool :=
  strStartsWith m "Merge branch " || strStartsWith m "Merge remote-tracking branch "

-- ================== data model (collectors.ts) ==================

/-- `MRItem` of collectors.ts; date strings are modelled as parsed instants. -/
structure MRItem where
  title : String
  description : Option String
  state : String
  sourceBranch : String
  targetBranch : String
  url : String
  createdAt : Int
  mergedAt : Option Int
  projectId : Nat
  iid : Nat
  mergeCommitSha : Option String
deriving DecidableEq

/-- The raw GitLab payload `GitLabMR` of collectors.ts. -/
structure GitLabMR where
  title : String
  description : Option String
  state : String
  source_branch : String
  target_branch : String
  web_url : String
  created_at : Int
  merged_at : Option Int
  updated_at : Int
  project_id : Nat
  iid : Nat
  merge_commit_sha : Option String
deriving DecidableEq

/-- The projection at the end of `collectGitLabMRs`. -/
def toMRItem (mr : GitLabMR) : MRItem :=
  { title := mr.title
    description := mr.description
    state := mr.state
    sourceBranch := mr.source_branch
    targetBranch := mr.target_branch
    url := mr.web_url
    createdAt := mr.created_at
    mergedAt := mr.merged_at
    projectId := mr.project_id
    iid := mr.iid
    mergeCommitSha := mr.merge_commit_sha }

/-- `fromDate <= t && t <= toDate` in the local re-filter of
`collectGitLabMRs`. -/
def inWindow (fromDate toDate t : Int) : Bool :=
  decide (fromDate ≤ t) && decide (t ≤ toDate)

/-- The predicate of the `data.filter` callback in `collectGitLabMRs`:
closed MRs are dropped, otherwise one of created/merged/updated must fall
in the window `[from T00:00:00Z, to T23:59:59Z]` (passed here as the two
parsed bounds `fromDate`, `toDate`). -/
def keepMR (fromDate toDate : Int) (mr : GitLabMR) : Bool :=
  if mr.state = "closed" then false
  else
    inWindow fromDate toDate mr.created_at ||
    (match mr.merged_at with
     | some m => inWindow fromDate toDate m
     | none => false) ||
    inWindow fromDate toDate mr.updated_at

/-- The local filtering and projection step of `collectGitLabMRs` (the
network read that produced `data` is the oracle input). -/
def collectGitLabMRsLocal (fromDate toDate : Int) (data : List GitLabMR) :
    List MRItem :=
  (data.filter (keepMR fromDate toDate)).map toMRItem

-- ================== reconciliation (collectMRDetails) ==================

/-- A raw commit as returned by the GitLab commits endpoint. -/
structure RawCommit where
  id : String
  message : String
  author_email : String
deriving DecidableEq

/-- `MRCommit` of collectors.ts. -/
structure MRCommit where
  sha : String
  message : String
deriving DecidableEq

/-- `MRDetail` of collectors.ts. -/
structure MRDetail where
  mr : MRItem
  commits : List MRCommit
  deployStatus : String
  isHotfix : Bool
deriving DecidableEq

/-- `FLOW_BRANCHES` of collectors.ts (a JS `Set`, modelled as a list with
membership lookups). -/
def FLOW_BRANCHES : List String := ["main", "master", "gray-release", "release"]

/-- `isMergeBranchMR` of collectors.ts. -/
def isMergeBranchMR (mr : MRItem) : Bool :=
  decide (mr.sourceBranch ∈ FLOW_BRANCHES) && decide (mr.targetBranch ∈ FLOW_BRANCHES)

/-- The pure part of `fetchMRCommits`: `raw` is what the commits endpoint
returned; keep the configured author's commits, project to first-line
messages, drop merge noise. -/
def fetchMRCommits (username : String) (raw : List RawCommit) : List MRCommit :=
  ((raw.filter
      (fun c => localPart (lowerStr c.author_email) = lowerStr username)).map
    (fun c => { sha := c.id, message := firstLine c.message })).filter
    (fun c => !noiseCommit c.message)

/-- `resolveDeployStatus` of collectors.ts: branch membership with the fixed
precedence release, then gray-release, then main/master. -/
def resolveDeployStatus (branches : List String) : String :=
  if "release" ∈ branches then "已上线"
  else if "gray-release" ∈ branches then "灰度中"
  else if "main" ∈ branches ∨ "master" ∈ branches then "已提测"
  else "开发中"

/-- The body of the per-MR loop in `collectMRDetails`, with the branch
lookups the iteration performs recorded in `refsLookups`. -/
structure StepResult where
  detail : Option MRDetail
  refsLookups : List String
deriving DecidableEq

/-- One iteration of the loop in `collectMRDetails`.  `commitsOf` is the
commits endpoint, `refsOf` the branch-membership endpoint (names of branches
containing a SHA). -/
def collectStep (username : String) (commitsOf : MRItem → List RawCommit)
    (refsOf : String → List String) (mr : MRItem) : StepResult :=
  let commits := fetchMRCommits username (commitsOf mr)
  if commits.isEmpty then { detail := none, refsLookups := [] }
  else
    let isHotfix := decide (mr.targetBranch ≠ "main") && decide (mr.targetBranch ≠ "master")
    if mr.state ≠ "merged" then
      { detail := some { mr := mr, commits := commits, deployStatus := "开发中", isHotfix := isHotfix }
        refsLookups := [] }
    else
      match mr.mergeCommitSha with
      | some sha =>
        { detail := some { mr := mr, commits := commits,
                           deployStatus := resolveDeployStatus (refsOf sha), isHotfix := isHotfix }
          refsLookups := [sha] }
      | none =>
        { detail := some { mr := mr, commits := commits,
                           deployStatus := resolveDeployStatus [mr.targetBranch], isHotfix := isHotfix }
          refsLookups := [] }

/-- `collectMRDetails` of collectors.ts: drop branch-promotion MRs, then run
the loop, keeping the MRs that produced a detail. -/
def collectMRDetails (username : String) (commitsOf : MRItem → List RawCommit)
    (refsOf : String → List String) (mrs : List MRItem) : List MRDetail :=
  (mrs.filter (fun mr => !isMergeBranchMR mr)).filterMap
    (fun mr => (collectStep username commitsOf refsOf mr).detail)

-- ================== Jira key extraction (collectJiraIssues) ==================

/-- `[A-Z]`. -/
def isUpperCh (c : Char) : Bool := decide ('A' ≤ c) && decide (c ≤ 'Z')

/-- `[0-9]` (`\d`). -/
def isDigitCh (c : Char) : Bool := decide ('0' ≤ c) && decide (c ≤ '9')

/-- `[A-Z0-9]`. -/
def isUpperOrDigit (c : Char) : Bool := isUpperCh c || isDigitCh c

/-- A match of `/[A-Z][A-Z0-9]+-\d+/` anchored at the head of the character
list: the matched characters and the remainder after the match.  The two
`+` quantifiers are greedy; no backtracking can help here because `-` is not
in `[A-Z0-9]`, so the maximal runs are the only candidates. -/
def matchKeyAt : List Char → Option (List Char × List Char)
  | [] => none
  | c :: rest =>
    if isUpperCh c then
      let run := rest.takeWhile isUpperOrDigit
      let rest2 := rest.dropWhile isUpperOrDigit
      if run.isEmpty then none
      else
        match rest2 with
        | '-' :: rest3 =>
          let digits := rest3.takeWhile isDigitCh
          if digits.isEmpty then none
          else some (c :: (run ++ '-' :: digits), rest3.dropWhile isDigitCh)
        | _ => none
    else none

/-- The scan of `text.matchAll(keyPattern)`: successive non-overlapping
leftmost matches, the search resuming after each match (and advancing one
character past a failed position).  `fuel` bounds the recursion; the scan
consumes at least one character per step, so `fuel = length` is enough. -/
def scanKeysAux : Nat → List Char → List String
  | 0, _ => []
  | _ + 1, [] => []
  | fuel + 1, c :: rest =>
    match matchKeyAt (c :: rest) with
    | some (m, rest2) => String.mk m :: scanKeysAux fuel rest2
    | none => scanKeysAux fuel rest

/-- All matches of the Jira-key pattern in a string, in order. -/
def scanKeys (s : String) : List String := scanKeysAux s.length s.data

/-- JS `Set.add`: insert at the end unless already present. -/
def insertKey (acc : List String) (k : String) : List String :=
  if k ∈ acc then acc else acc ++ [k]

/-- The text scanned for one MR: title, source branch and description
joined by spaces, a null description reading as the empty string. -/
def mrText (mr : MRItem) : String :=
  mr.title ++ " " ++ mr.sourceBranch ++ " " ++ (mr.description.getD "")

/-- The deduplicated key set (`keysSet`) of `collectJiraIssues`, as the JS
`Set` insertion order. -/
def extractJiraKeys (mrs : List MRItem) : List String :=
  mrs.foldl (fun acc mr => (scanKeys (mrText mr)).foldl insertKey acc) []

/-- A local git commit (`GitCommit` of the commit-level variant). -/
structure GitCommit where
  repo : String
  message : String
deriving DecidableEq

/-- The key set of the commit-level variant of `collectJiraIssues`, which
also scans local commit messages. -/
def extractJiraKeysWithCommits (mrs : List MRItem) (commits : List GitCommit) :
    List String :=
  commits.foldl (fun acc c => (scanKeys c.message).foldl insertKey acc)
    (extractJiraKeys mrs)

/-- `JiraItem` of collectors.ts. -/
structure JiraItem where
  key : String
  summary : String
  issueType : String
  status : String
deriving DecidableEq

/-- The network calls `collectJiraIssues` can make, in order: the login
POST, then the search GET. -/
inductive JiraCall where
  | login
  | search (jql : String)
deriving DecidableEq

/-- `collectJiraIssues` (MR-level variant): the returned issues and the
network calls made.  `searchOracle` stands for the remote search response.
When no key was extracted the function returns early: no login, no search. -/
def collectJiraIssues (searchOracle : String → List JiraItem)
    (mrs : List MRItem) : List JiraItem × List JiraCall :=
  let keys := extractJiraKeys mrs
  if keys.isEmpty then ([], [])
  else
    let jql := "key in (" ++ String.intercalate "," keys ++ ")"
    (searchOracle jql, [JiraCall.login, JiraCall.search jql])

/-- `collectJiraIssues` of the commit-level variant (keys also from commit
messages); same early return on an empty key set. -/
def collectJiraIssuesWithCommits (searchOracle : String → List JiraItem)
    (mrs : List MRItem) (commits : List GitCommit) :
    List JiraItem × List JiraCall :=
  let keys := extractJiraKeysWithCommits mrs commits
  if keys.isEmpty then ([], [])
  else
    let jql := "key in (" ++ String.intercalate "," keys ++ ")"
    (searchOracle jql, [JiraCall.login, JiraCall.search jql])

-- ================== rendering (render.ts) ==================

/-- `DateRange` of collectors.ts (`from` is a reserved word in Lean, so the
fields are `fromDate`/`toDate`). -/
structure DateRange where
  fromDate : String
  toDate : String
deriving DecidableEq

/-- `GitRepoSummary` of the commit-level collectors variant. -/
structure GitRepoSummary where
  repo : String
  commitCount : Nat
deriving DecidableEq

/-- `WeeklyData` as consumed by render.ts (the commit-level variant's
shape: MRs, Jira issues, local commits and the per-repo summary). -/
structure WeeklyData where
  dateRange : DateRange
  mrs : List MRItem
  jiraIssues : List JiraItem
  commits : List GitCommit
  gitSummary : List GitRepoSummary
deriving DecidableEq

/-- The part of `Config` render.ts reads. -/
structure RenderConfig where
  JIRA_HOST : String
deriving DecidableEq

/-- `formatDate` of render.ts: every hyphen replaced by a dot. -/
def formatDate (d : String) : String :=
  String.mk (d.data.map (fun c => if c = '-' then '.' else c))

/-- `stateEmoji` of render.ts. -/
def stateEmoji (state : String) : String :=
  if state = "merged" then "✅"
  else if state = "opened" then "🔵"
  else if state = "closed" then "🔴"
  else "⬜"

/-- `capitalizeState` of render.ts: `s.charAt(0).toUpperCase() + s.slice(1)`. -/
def capitalizeState (s : String) : String :=
  match s.data with
  | [] => ""
  | c :: rest => String.mk (c.toUpper :: rest)

/-- `new Map(jiraIssues.map(i => [i.key, i])).get(k)`: a later issue with
the same key overwrites an earlier one, so the lookup finds the last. -/
def jiraLookup (issues : List JiraItem) (k : String) : Option JiraItem :=
  issues.reverse.find? (fun i => i.key = k)

/-- One bullet of the "本周完成" section: the first Jira key of the commit
message that resolves in the issue map decorates the line, otherwise the
line is the bare message. -/
def commitLine (cfg : RenderConfig) (issues : List JiraItem) (c : GitCommit) :
    String :=
  let keys := scanKeys c.message
  match (keys.filterMap (jiraLookup issues)).head? with
  | some jira =>
    "- " ++ ("[" ++ jira.key ++ "](" ++ cfg.JIRA_HOST ++ "/browse/" ++ jira.key ++
      ") " ++ c.message ++ " (" ++ jira.status ++ ")")
  | none => "- " ++ c.message

/-- One row of the Merge Requests table. -/
def mrTableRow (mr : MRItem) : String :=
  "| [" ++ mr.title ++ "](" ++ mr.url ++ ") | " ++ stateEmoji mr.state ++ " " ++
    capitalizeState mr.state ++ " | " ++ mr.targetBranch ++ " |"

/-- One bullet of the per-repository commit summary. -/
def summaryLine (r : GitRepoSummary) : String :=
  "- " ++ (r.repo ++ ": " ++ toString r.commitCount ++ " commits")

/-- The lines `generateMarkdown` pushes, in order. -/
def generateMarkdownLines (data : WeeklyData) (cfg : RenderConfig) :
    List String :=
  ["# 周报 " ++ formatDate data.dateRange.fromDate ++ " - " ++
      formatDate data.dateRange.toDate, "", "## 本周完成", ""] ++
  (if data.commits.isEmpty then ["_本周无提交记录_"]
   else data.commits.map (commitLine cfg data.jiraIssues)) ++
  [""] ++
  (if data.mrs.isEmpty then []
   else ["## Merge Requests", "| MR | 状态 | 目标分支 |", "|----|------|----------|"] ++
     data.mrs.map mrTableRow ++ [""]) ++
  (if data.gitSummary.isEmpty then []
   else ["## 代码提交摘要"] ++ data.gitSummary.map summaryLine ++ [""]) ++
  ["## 补充内容",
   "<!-- 在这里添加你的补充内容，如：下周计划、遇到的问题、需要协调的事项等 -->", ""]

/-- `generateMarkdown` of render.ts: the lines joined with newlines. -/
def generateMarkdown (data : WeeklyData) (cfg : RenderConfig) : String :=
  String.intercalate "\n" (generateMarkdownLines data cfg)

-- ================== mailing (mailer.ts) ==================

/-- The part of `Config` mailer.ts reads. -/
structure MailConfig where
  SMTP_HOST : String
  SMTP_PORT : Nat
  SMTP_USER : String
  SMTP_PASS : String
  MAIL_TO : List String
  MAIL_CC : List String
  MAIL_SUBJECT_TEMPLATE : String
  MAIL_AUTHOR_NAME : String
  MAIL_THREAD : Bool
deriving DecidableEq

/-- The record `loadThread` produces (`.mail-thread.json` content). -/
structure ThreadState where
  messageId : Option String
  references : Option (List String)
deriving DecidableEq

/-- The `{}` a failed read or parse degrades to. -/
def emptyThread : ThreadState := { messageId := none, references := none }

/-- `loadThread` of mailer.ts: `file` is the thread file's content (`none`
when the file is absent) and `parse` models `JSON.parse` (`none` on a parse
failure); both failures degrade to the empty record via the `try/catch`. -/
def loadThread (parse : String → Option ThreadState) (file : Option String) :
    ThreadState :=
  match file with
  | none => emptyThread
  | some s => (parse s).getD emptyThread

/-- The world `sendMail` touches: the draft files (name, content), the
thread-state file content, and a count of SMTP submissions attempted. -/
structure MailWorld where
  drafts : List (String × String)
  threadFile : Option String
  smtpSends : Nat
deriving DecidableEq

/-- The message handed to `transporter.sendMail` (`to` is a reserved word
in Lean, so the field is `recipients`). -/
structure SentMessage where
  recipients : List String
  cc : Option String
  subject : String
  html : String
  headers : List (String × String)
deriving DecidableEq

/-- JS `String.prototype.replace` with a string pattern: only the first
occurrence is replaced. -/
def replaceFirst (s pat rep : String) : String :=
  match s.splitOn pat with
  | [] => s
  | [x] => x
  | x :: y :: rest => x ++ rep ++ String.intercalate pat (y :: rest)

/-- `sendMail` of mailer.ts.  `parse` models `JSON.parse` of the thread
file, `encode` models `JSON.stringify` of the saved thread state, and
`newMessageId` is the id the SMTP transport reports for the sent message.
The returned world carries the state after the call; on the two
configuration errors the function throws before any SMTP connection, so the
world comes back unchanged. -/
def sendMail (cfg : MailConfig) (parse : String → Option ThreadState)
    (encode : ThreadState → String) (newMessageId : String) (html : String)
    (range : DateRange) (w : MailWorld) : MailWorld × Except String SentMessage :=
  if cfg.SMTP_USER = "" ∨ cfg.SMTP_PASS = "" then
    (w, Except.error "缺少 SMTP 配置，请在 .env 中配置 SMTP_USER 和 SMTP_PASS")
  else if cfg.MAIL_TO = [] then
    (w, Except.error "缺少收件人，请在 .env 中配置 MAIL_TO")
  else
    let subject :=
      replaceFirst
        (replaceFirst cfg.MAIL_SUBJECT_TEMPLATE "{author}" cfg.MAIL_AUTHOR_NAME)
        "{dateRange}"
        (formatDate range.fromDate ++ "-" ++ formatDate range.toDate)
    let thread := if cfg.MAIL_THREAD then loadThread parse w.threadFile else emptyThread
    let headers : List (String × String) :=
      match thread.messageId with
      | some mid =>
        [("In-Reply-To", mid),
         ("References", String.intercalate " " (thread.references.getD []))]
      | none => []
    let msg : SentMessage :=
      { recipients := cfg.MAIL_TO
        cc := if cfg.MAIL_CC.isEmpty then none else some (String.intercalate ", " cfg.MAIL_CC)
        subject := subject
        html := html
        headers := headers }
    let w1 : MailWorld := { w with smtpSends := w.smtpSends + 1 }
    let saved : ThreadState :=
      { messageId := some newMessageId
        references := some ((thread.references.getD []) ++ [newMessageId]) }
    let w2 : MailWorld :=
      if cfg.MAIL_THREAD then { w1 with threadFile := some (encode saved) } else w1
    (w2, Except.ok msg)

-- ================== concrete fixtures ==================

/-- A commit authored by the configured user (email local-part `alice`). -/
def rcA : RawCommit :=
  { id := "c1", message := "HCM-1 feat: add button\nlonger body", author_email := "Alice@corp.com" }

/-- A merge-noise commit by the configured user. -/
def rcMerge : RawCommit :=
  { id := "c2", message := "Merge branch dev into feat", author_email := "alice@corp.com" }

/-- A commit by somebody else. -/
def rcBob : RawCommit :=
  { id := "c3", message := "fix: tweak styles", author_email := "bob@corp.com" }

/-- A commits endpoint always answering with the three commits above. -/
def commitsOfW : MRItem → List RawCommit := fun _ => [rcA, rcMerge, rcBob]

/-- The projection of `rcA` that survives the filters. -/
def commitC1 : MRCommit := { sha := "c1", message := "HCM-1 feat: add button" }

/-- Branch endpoints used in the concrete runs. -/
def refsOfEmpty : String → List String := fun _ => []

/-- Branch endpoint: the commit is on both gray-release and release. -/
def refsOfGrayRelease : String → List String := fun _ => ["gray-release", "release"]

/-- Branch endpoint: the commit is on gray-release but not on release. -/
def refsOfGrayOnly : String → List String := fun _ => ["gray-release", "master"]

/-- Branch endpoint: the commit is only on a feature branch. -/
def refsOfFeature : String → List String := fun _ => ["feature-x"]

/-- An open (not merged) MR. -/
def mrOpen : MRItem :=
  { title := "HCM-1 add button", description := none, state := "opened"
    sourceBranch := "feat/HCM-1", targetBranch := "main", url := "u1"
    createdAt := 0, mergedAt := none, projectId := 1, iid := 1, mergeCommitSha := none }

/-- A merged MR with a merge-commit SHA. -/
def mrMergedGray : MRItem :=
  { title := "HCM-2 fix layout", description := none, state := "merged"
    sourceBranch := "feat/HCM-2", targetBranch := "master", url := "u2"
    createdAt := 0, mergedAt := some 5, projectId := 1, iid := 2, mergeCommitSha := some "sha2" }

/-- A merged MR with a SHA whose target branch is `release`. -/
def mrMergedRel : MRItem :=
  { title := "HCM-3 hotfix", description := none, state := "merged"
    sourceBranch := "feat/HCM-3", targetBranch := "release", url := "u3"
    createdAt := 0, mergedAt := some 6, projectId := 1, iid := 3, mergeCommitSha := some "sha3" }

/-- A merged MR without a merge-commit SHA. -/
def mrMergedNoSha : MRItem :=
  { title := "HCM-4 tweak", description := none, state := "merged"
    sourceBranch := "feat/HCM-4", targetBranch := "release", url := "u4"
    createdAt := 0, mergedAt := some 7, projectId := 1, iid := 4, mergeCommitSha := none }

/-- An MR whose texts contain no Jira key. -/
def mrNoKeys : MRItem :=
  { title := "fix the layout bug", description := some "no tracker key here"
    state := "opened", sourceBranch := "feat/layout", targetBranch := "main", url := "u5"
    createdAt := 0, mergedAt := none, projectId := 1, iid := 5, mergeCommitSha := none }

/-- An MR whose state is the string `open` (not GitLab's `opened`). -/
def mrStateOpen : MRItem :=
  { title := "t", description := none, state := "open"
    sourceBranch := "feat/t", targetBranch := "main", url := "u6"
    createdAt := 0, mergedAt := none, projectId := 1, iid := 6, mergeCommitSha := none }

/-- The detail the reconciler produces for `mrOpen`. -/
def detailOpen : MRDetail :=
  { mr := mrOpen, commits := [commitC1], deployStatus := "开发中", isHotfix := false }

/-- The detail for `mrMergedGray` against `refsOfGrayOnly`. -/
def detailGray : MRDetail :=
  { mr := mrMergedGray, commits := [commitC1], deployStatus := "灰度中", isHotfix := false }

/-- The detail for `mrMergedNoSha` (target-branch fallback). -/
def detailNoSha : MRDetail :=
  { mr := mrMergedNoSha, commits := [commitC1], deployStatus := "已上线", isHotfix := true }

/-- The detail for `mrMergedRel` against `refsOfFeature`. -/
def detailDev : MRDetail :=
  { mr := mrMergedRel, commits := [commitC1], deployStatus := "开发中", isHotfix := true }

/-- A search endpoint (never reached in the runs below). -/
def jiraOracleNone : String → List JiraItem := fun _ => []

/-- A local commit without a Jira key. -/
def gitCommitW : GitCommit := { repo := "repo1", message := "chore: bump deps" }

/-- A snapshot with one open MR and nothing else. -/
def weeklyW : WeeklyData :=
  { dateRange := { fromDate := "2026-02-16", toDate := "2026-02-20" }
    mrs := [mrOpen], jiraIssues := [], commits := [], gitSummary := [] }

/-- The render configuration of the concrete runs. -/
def renderCfgW : RenderConfig := { JIRA_HOST := "https://jira.example.com" }

/-- A mail configuration with credentials but an empty recipient list. -/
def mailCfgNoTo : MailConfig :=
  { SMTP_HOST := "smtp.example.com", SMTP_PORT := 465, SMTP_USER := "u@x", SMTP_PASS := "pw"
    MAIL_TO := [], MAIL_CC := [], MAIL_SUBJECT_TEMPLATE := "weekly report"
    MAIL_AUTHOR_NAME := "alice", MAIL_THREAD := false }

/-- A fully configured mail configuration with threading enabled. -/
def mailCfgThread : MailConfig :=
  { SMTP_HOST := "smtp.example.com", SMTP_PORT := 465, SMTP_USER := "u@x", SMTP_PASS := "pw"
    MAIL_TO := ["boss@x"], MAIL_CC := [], MAIL_SUBJECT_TEMPLATE := "weekly report"
    MAIL_AUTHOR_NAME := "alice", MAIL_THREAD := true }

/-- A `JSON.parse` model that always fails. -/
def parseAlwaysFails : String → Option ThreadState := fun _ => none

/-- A `JSON.stringify` model. -/
def encodeW : ThreadState → String := fun _ => "encoded"

/-- A world holding one persisted draft and no thread file. -/
def worldW : MailWorld :=
  { drafts := [("2026-02-20.md", "draft body")], threadFile := none, smtpSends := 0 }

/-- The report window of the concrete runs. -/
def rangeW : DateRange := { fromDate := "2026-02-16", toDate := "2026-02-20" }

/-- A raw GitLab MR inside the window. -/
def rawInWindow : GitLabMR :=
  { title := "HCM-1 add button", description := none, state := "opened"
    source_branch := "feat/HCM-1", target_branch := "main", web_url := "u1"
    created_at := 100, merged_at := none, updated_at := 150
    project_id := 1, iid := 1, merge_commit_sha := none }

-- ================== theorems ==================

/-- The filter predicate of `collectGitLabMRs`, characterized. -/
theorem keepMR_iff (fromDate toDate : Int) (mr : GitLabMR) :
    keepMR fromDate toDate mr = true ↔
      mr.state ≠ "closed" ∧
        ((fromDate ≤ mr.created_at ∧ mr.created_at ≤ toDate) ∨
         (∃ m, mr.merged_at = some m ∧ fromDate ≤ m ∧ m ≤ toDate) ∨
         (fromDate ≤ mr.updated_at ∧ mr.updated_at ≤ toDate)) := by
  unfold keepMR inWindow
  split
  · rename_i h
    simp [h]
  · rename_i h
    cases hm : mr.merged_at <;> simp [h, hm, or_assoc]

/-- C3: `collectGitLabMRs` retains an MR returned by the remote query iff its
state is not `closed` and at least one of creation, merge or update time
falls within the window (the parsed bounds `from 00:00:00Z`, `to 23:59:59Z`
are passed as `fromDate`, `toDate`); closed items are excluded regardless of
their timestamps. -/
theorem mr_window_filter_characterization (fromDate toDate : Int)
    (data : List GitLabMR) (x : MRItem) :
    x ∈ collectGitLabMRsLocal fromDate toDate data ↔
      ∃ raw, raw ∈ data ∧ raw.state ≠ "closed" ∧
        ((fromDate ≤ raw.created_at ∧ raw.created_at ≤ toDate) ∨
         (∃ m, raw.merged_at = some m ∧ fromDate ≤ m ∧ m ≤ toDate) ∨
         (fromDate ≤ raw.updated_at ∧ raw.updated_at ≤ toDate)) ∧
        x = toMRItem raw := by
  unfold collectGitLabMRsLocal
  simp only [List.mem_map, List.mem_filter]
  constructor
  · rintro ⟨raw, ⟨hmem, hkeep⟩, rfl⟩
    obtain ⟨h1, h2⟩ := (keepMR_iff fromDate toDate raw).1 hkeep
    exact ⟨raw, hmem, h1, h2, rfl⟩
  · rintro ⟨raw, hmem, h1, h2, rfl⟩
    exact ⟨raw, ⟨hmem, (keepMR_iff fromDate toDate raw).2 ⟨h1, h2⟩⟩, rfl⟩

/-- C4: a work item whose state is not `merged` gets deploy status 开发中
and no branch-membership lookup is performed for it. -/
theorem nonmerged_in_development (username : String)
    (commitsOf : MRItem → List RawCommit) (refsOf : String → List String)
    (mr : MRItem) (h : mr.state ≠ "merged") :
    (collectStep username commitsOf refsOf mr).refsLookups = [] ∧
      ∀ d, (collectStep username commitsOf refsOf mr).detail = some d →
        d.deployStatus = "开发中" := by
  unfold collectStep
  by_cases hc : (fetchMRCommits username (commitsOf mr)).isEmpty
  · simp [hc]
  · simp only [hc, if_neg, Bool.false_eq_true, if_false]
    rw [if_pos h]
    constructor
    · rfl
    · rintro d hd
      cases hd
      rfl

/-- C4 witness: the concrete open MR `mrOpen`. -/
theorem nonmerged_in_development_witness :
    (collectStep "alice" commitsOfW refsOfEmpty mrOpen).refsLookups = [] ∧
      ∀ d, (collectStep "alice" commitsOfW refsOfEmpty mrOpen).detail = some d →
        d.deployStatus = "开发中" :=
  nonmerged_in_development "alice" commitsOfW refsOfEmpty mrOpen (by decide)

/-- Every commit surviving `fetchMRCommits` is attributable: its author's
e-mail local-part matches the configured username case-insensitively, its
message is a first line, and it is not merge noise. -/
theorem fetchMRCommits_sound (username : String) (raw : List RawCommit)
    (c : MRCommit) (hc : c ∈ fetchMRCommits username raw) :
    noiseCommit c.message = false ∧
      ∃ r, r ∈ raw ∧ localPart (lowerStr r.author_email) = lowerStr username ∧
        c.sha = r.id ∧ c.message = firstLine r.message := by
  unfold fetchMRCommits at hc
  simp only [List.mem_filter, List.mem_map, Bool.not_eq_eq_eq_not, Bool.not_true,
    decide_eq_true_eq] at hc
  obtain ⟨⟨r, ⟨hr, hauth⟩, rfl⟩, hnoise⟩ := hc
  exact ⟨hnoise, r, hr, hauth, rfl, rfl⟩

/-- A detail produced by one loop iteration carries that iteration's MR and
its filtered commit list. -/
theorem collectStep_detail_shape (username : String)
    (commitsOf : MRItem → List RawCommit) (refsOf : String → List String)
    (mr : MRItem) (d : MRDetail)
    (h : (collectStep username commitsOf refsOf mr).detail = some d) :
    d.mr = mr ∧ d.commits = fetchMRCommits username (commitsOf mr) := by
  simp only [collectStep] at h
  split at h
  · cases h
  · split at h
    · cases h
      exact ⟨rfl, rfl⟩
    · split at h <;> · cases h; exact ⟨rfl, rfl⟩

/-- Every produced detail comes from one of the non-promotion MRs. -/
theorem collectMRDetails_mem (username : String)
    (commitsOf : MRItem → List RawCommit) (refsOf : String → List String)
    (mrs : List MRItem) (d : MRDetail)
    (hd : d ∈ collectMRDetails username commitsOf refsOf mrs) :
    ∃ mr, mr ∈ mrs ∧ (collectStep username commitsOf refsOf mr).detail = some d := by
  unfold collectMRDetails at hd
  simp only [List.mem_filterMap, List.mem_filter] at hd
  obtain ⟨mr, ⟨hmr, _⟩, hs⟩ := hd
  exact ⟨mr, hmr, hs⟩

/-- C5: every commit in a produced MRDetail's commit list was authored by the
configured user (e-mail local-part, case-insensitive) and its first-line
message is not merge noise. -/
theorem commit_attribution (username : String)
    (commitsOf : MRItem → List RawCommit) (refsOf : String → List String)
    (mrs : List MRItem) (d : MRDetail)
    (hd : d ∈ collectMRDetails username commitsOf refsOf mrs)
    (c : MRCommit) (hc : c ∈ d.commits) :
    noiseCommit c.message = false ∧
      ∃ r, r ∈ commitsOf d.mr ∧
        localPart (lowerStr r.author_email) = lowerStr username ∧
        c.sha = r.id ∧ c.message = firstLine r.message := by
  obtain ⟨mr, _, hstep⟩ := collectMRDetails_mem username commitsOf refsOf mrs d hd
  obtain ⟨hmr, hcommits⟩ := collectStep_detail_shape username commitsOf refsOf mr d hstep
  rw [hmr]
  rw [hcommits] at hc
  exact fetchMRCommits_sound username (commitsOf mr) c hc

/-- C5 witness: the surviving commit of the concrete open MR. -/
theorem commit_attribution_witness :
    noiseCommit commitC1.message = false ∧
      ∃ r, r ∈ commitsOfW detailOpen.mr ∧
        localPart (lowerStr r.author_email) = lowerStr "alice" ∧
        commitC1.sha = r.id ∧ commitC1.message = firstLine r.message :=
  commit_attribution "alice" commitsOfW refsOfEmpty [mrOpen] detailOpen
    (List.mem_singleton_self detailOpen) commitC1 (List.mem_singleton_self commitC1)

/-- C1 counterexample: a merged MR whose merge commit sits on both
gray-release and release is reported 已上线, not 灰度中 — the release branch
outranks the rollout branch in `resolveDeployStatus`. -/
theorem rollout_precedence_counterexample :
    ((collectStep "alice" commitsOfW refsOfGrayRelease mrMergedGray).detail.map
        (fun d => d.deployStatus)) = some "已上线" ∧
      resolveDeployStatus ["gray-release", "release"] = "已上线" ∧
      ("已上线" : String) ≠ "灰度中" :=
  ⟨rfl, rfl, by decide⟩

/-- C1 amended: a merged item whose merge commit is contained in the
staged-rollout branch is reported 灰度中 provided the release branch does
not also contain it; release outranks gray-release, which outranks
main/master. -/
theorem rollout_when_not_released (username : String)
    (commitsOf : MRItem → List RawCommit) (refsOf : String → List String)
    (mr : MRItem) (sha : String) (d : MRDetail)
    (h1 : mr.state = "merged") (h2 : mr.mergeCommitSha = some sha)
    (h3 : "gray-release" ∈ refsOf sha) (h4 : "release" ∉ refsOf sha)
    (hd : (collectStep username commitsOf refsOf mr).detail = some d) :
    d.deployStatus = "灰度中" := by
  simp only [collectStep] at hd
  split at hd
  · cases hd
  · split at hd
    · rename_i hne
      exact absurd h1 hne
    · split at hd
      · rename_i sha' heq
        rw [h2] at heq
        cases heq
        cases hd
        simp [resolveDeployStatus, h3, h4]
      · rename_i heq
        rw [h2] at heq
        cases heq

/-- C1 witness: the concrete merged MR on gray-release only. -/
theorem rollout_when_not_released_witness : detailGray.deployStatus = "灰度中" :=
  rollout_when_not_released "alice" commitsOfW refsOfGrayOnly mrMergedGray
    "sha2" detailGray rfl rfl (by decide) (by decide) rfl

/-- C2 counterexample: a merged MR with a merge-commit SHA contained in no
long-lived branch is reported 开发中; the target branch (`release`, which
would classify as 已上线) is not consulted. -/
theorem sha_no_branch_counterexample :
    ((collectStep "alice" commitsOfW refsOfFeature mrMergedRel).detail.map
        (fun d => d.deployStatus)) = some "开发中" ∧
      resolveDeployStatus [mrMergedRel.targetBranch] = "已上线" ∧
      ("开发中" : String) ≠ "已上线" :=
  ⟨rfl, rfl, by decide⟩

/-- C2 amended: the target-branch fallback applies exactly to merged items
with no merge-commit SHA; a merged item whose SHA is contained in none of
release, gray-release, main, master is reported 开发中. -/
theorem merged_status_fallback (username : String)
    (commitsOf : MRItem → List RawCommit) (refsOf : String → List String)
    (mr : MRItem) (h1 : mr.state = "merged") :
    (mr.mergeCommitSha = none →
      ∀ d, (collectStep username commitsOf refsOf mr).detail = some d →
        d.deployStatus = resolveDeployStatus [mr.targetBranch]) ∧
    (∀ sha, mr.mergeCommitSha = some sha →
      "release" ∉ refsOf sha → "gray-release" ∉ refsOf sha →
      "main" ∉ refsOf sha → "master" ∉ refsOf sha →
      ∀ d, (collectStep username commitsOf refsOf mr).detail = some d →
        d.deployStatus = "开发中") := by
  constructor
  · intro hn d hd
    simp only [collectStep] at hd
    split at hd
    · cases hd
    · split at hd
      · rename_i hne
        exact absurd h1 hne
      · split at hd
        · rename_i sha' heq
          rw [hn] at heq
          cases heq
        · cases hd
          rfl
  · intro sha hs hrel hgray hmain hmaster d hd
    simp only [collectStep] at hd
    split at hd
    · cases hd
    · split at hd
      · rename_i hne
        exact absurd h1 hne
      · split at hd
        · rename_i sha' heq
          rw [hs] at heq
          cases heq
          cases hd
          simp [resolveDeployStatus, hrel, hgray, hmain, hmaster]
        · rename_i heq
          rw [hs] at heq
          cases heq

/-- C2 witness: the SHA-less merged MR falls back to its target branch, and
the merged MR whose SHA lives on a feature branch only is 开发中. -/
theorem merged_status_fallback_witness :
    detailNoSha.deployStatus = resolveDeployStatus [mrMergedNoSha.targetBranch] ∧
      detailDev.deployStatus = "开发中" :=
  ⟨(merged_status_fallback "alice" commitsOfW refsOfEmpty mrMergedNoSha rfl).1
      rfl detailNoSha rfl,
   (merged_status_fallback "alice" commitsOfW refsOfFeature mrMergedRel rfl).2
      "sha3" rfl (by decide) (by decide) (by decide) (by decide) detailDev rfl⟩

/-- C6: when zero issue keys are extracted from the MRs' titles, source
branches and descriptions (and, in the commit-level variant, from commit
messages), `collectJiraIssues` returns the empty list and makes no network
call: neither the login POST nor the search GET is issued. -/
theorem no_keys_no_network (oracle oracle2 : String → List JiraItem)
    (mrs : List MRItem) (commits : List GitCommit)
    (h1 : extractJiraKeys mrs = [])
    (h2 : extractJiraKeysWithCommits mrs commits = []) :
    collectJiraIssues oracle mrs = ([], []) ∧
      collectJiraIssuesWithCommits oracle2 mrs commits = ([], []) := by
  constructor
  · simp [collectJiraIssues, h1]
  · simp [collectJiraIssuesWithCommits, h2]

/-- C6 witness: an MR and a local commit that contain no issue key. -/
theorem no_keys_no_network_witness :
    collectJiraIssues jiraOracleNone [mrNoKeys] = ([], []) ∧
      collectJiraIssuesWithCommits jiraOracleNone [mrNoKeys] [gitCommitW] = ([], []) :=
  no_keys_no_network jiraOracleNone jiraOracleNone [mrNoKeys] [gitCommitW] rfl rfl

/-- C8: with empty SMTP credentials or an empty recipient list, `sendMail`
fails with a configuration error, attempts no SMTP connection, and leaves
the persisted drafts untouched. -/
theorem send_config_error_preserves_state (cfg : MailConfig)
    (parse : String → Option ThreadState) (encode : ThreadState → String)
    (newMessageId html : String) (range : DateRange) (w : MailWorld)
    (h : cfg.SMTP_USER = "" ∨ cfg.SMTP_PASS = "" ∨ cfg.MAIL_TO = []) :
    (sendMail cfg parse encode newMessageId html range w).1 = w ∧
      (sendMail cfg parse encode newMessageId html range w).1.drafts = w.drafts ∧
      (sendMail cfg parse encode newMessageId html range w).1.smtpSends = w.smtpSends ∧
      ∃ e, (sendMail cfg parse encode newMessageId html range w).2 = Except.error e := by
  have hmain : (sendMail cfg parse encode newMessageId html range w).1 = w ∧
      ∃ e, (sendMail cfg parse encode newMessageId html range w).2 = Except.error e := by
    unfold sendMail
    rcases h with h | h | h
    · rw [if_pos (Or.inl h)]
      exact ⟨rfl, _, rfl⟩
    · rw [if_pos (Or.inr h)]
      exact ⟨rfl, _, rfl⟩
    · by_cases hc : cfg.SMTP_USER = "" ∨ cfg.SMTP_PASS = ""
      · rw [if_pos hc]
        exact ⟨rfl, _, rfl⟩
      · rw [if_neg hc, if_pos h]
        exact ⟨rfl, _, rfl⟩
  exact ⟨hmain.1, by rw [hmain.1], by rw [hmain.1], hmain.2⟩

/-- C8 witness: credentials present but `MAIL_TO` empty. -/
theorem send_config_error_witness :
    (sendMail mailCfgNoTo parseAlwaysFails encodeW "mid" "<p>x</p>" rangeW worldW).1 = worldW ∧
      (sendMail mailCfgNoTo parseAlwaysFails encodeW "mid" "<p>x</p>" rangeW worldW).1.drafts = worldW.drafts ∧
      (sendMail mailCfgNoTo parseAlwaysFails encodeW "mid" "<p>x</p>" rangeW worldW).1.smtpSends = worldW.smtpSends ∧
      ∃ e, (sendMail mailCfgNoTo parseAlwaysFails encodeW "mid" "<p>x</p>" rangeW worldW).2 = Except.error e :=
  send_config_error_preserves_state mailCfgNoTo parseAlwaysFails encodeW
    "mid" "<p>x</p>" rangeW worldW (Or.inr (Or.inr rfl))

/-- C9: with threading enabled and a thread file that is absent or whose
content fails to parse, `sendMail` still sends, attaching no In-Reply-To or
References header. -/
theorem thread_state_degrades_gracefully (cfg : MailConfig)
    (parse : String → Option ThreadState) (encode : ThreadState → String)
    (newMessageId html : String) (range : DateRange) (w : MailWorld)
    (hUser : cfg.SMTP_USER ≠ "") (hPass : cfg.SMTP_PASS ≠ "")
    (hTo : cfg.MAIL_TO ≠ []) (hThread : cfg.MAIL_THREAD = true)
    (hFile : w.threadFile = none ∨ ∃ s, w.threadFile = some s ∧ parse s = none) :
    ∃ msg, (sendMail cfg parse encode newMessageId html range w).2 = Except.ok msg ∧
      msg.headers = [] := by
  simp only [sendMail]
  rw [if_neg (not_or.mpr ⟨hUser, hPass⟩), if_neg hTo]
  have hload : loadThread parse w.threadFile = emptyThread := by
    rcases hFile with h | ⟨s, hs, hp⟩
    · rw [h]
      rfl
    · rw [hs]
      simp [loadThread, hp]
  refine ⟨_, rfl, ?_⟩
  simp [hThread, hload, emptyThread]

/-- C9 witness: threading on, no thread file on disk. -/
theorem thread_state_degrades_gracefully_witness :
    ∃ msg, (sendMail mailCfgThread parseAlwaysFails encodeW "mid2" "<p>x</p>" rangeW worldW).2 = Except.ok msg ∧
      msg.headers = [] :=
  thread_state_degrades_gracefully mailCfgThread parseAlwaysFails encodeW
    "mid2" "<p>x</p>" rangeW worldW (by decide) (by decide) (by decide) rfl (Or.inl rfl)

/-- Taking two characters of an appended string only sees the prefix. -/
theorem take2_append (p t : String) (hlen : 2 ≤ p.data.length) :
    (p ++ t).data.take 2 = p.data.take 2 := by
  rw [String.data_append]
  exact List.take_append_of_le_length hlen

/-- Appending cannot shorten a string. -/
theorem two_le_append_length (p t : String) (h : 2 ≤ p.data.length) :
    2 ≤ (p ++ t).data.length := by
  rw [String.data_append, List.length_append]
  omega

/-- Strings differing in their first two characters differ. -/
theorem ne_of_take2 (s x : String) (h : s.data.take 2 ≠ x.data.take 2) : s ≠ x :=
  fun he => h (by rw [he])

/-- The report title always starts with a single hash and a space. -/
theorem title_take2 (fd ft : String) :
    ("# 周报 " ++ fd ++ " - " ++ ft).data.take 2 = ['#', ' '] := by
  rw [take2_append _ _ (two_le_append_length _ _ (two_le_append_length _ _ (by decide)))]
  rw [take2_append _ _ (two_le_append_length _ _ (by decide))]
  rw [take2_append _ _ (by decide)]
  decide

/-- A string with a fixed two-character prefix never equals a string with a different one. -/
theorem append_take2_ne (p t x : String) (hlen : 2 ≤ p.data.length)
    (h : p.data.take 2 ≠ x.data.take 2) : p ++ t ≠ x := by
  intro he
  apply h
  calc p.data.take 2 = (p ++ t).data.take 2 := (take2_append p t hlen).symm
    _ = x.data.take 2 := by rw [he]

/-- Every commit bullet starts with a dash and a space. -/
theorem commitLine_shape (cfg : RenderConfig) (issues : List JiraItem) (c : GitCommit) :
    ∃ t, commitLine cfg issues c = "- " ++ t := by
  simp only [commitLine]
  split <;> exact ⟨_, rfl⟩

/-- Every summary bullet starts with a dash and a space. -/
theorem summaryLine_shape (r : GitRepoSummary) : ∃ t, summaryLine r = "- " ++ t :=
  ⟨_, rfl⟩

/-- Every table row starts with a pipe. -/
theorem mrTableRow_shape (mr : MRItem) : ∃ t, mrTableRow mr = "| [" ++ t := by
  refine ⟨mr.title ++ ("](" ++ (mr.url ++ (") | " ++ (stateEmoji mr.state ++ (" " ++
    (capitalizeState mr.state ++ (" | " ++ (mr.targetBranch ++ " |")))))))), ?_⟩
  simp only [mrTableRow, String.append_assoc]

/-- With zero merge requests, the Merge Requests heading is nowhere in the output. -/
theorem mr_section_absent (data : WeeklyData) (cfg : RenderConfig) (h : data.mrs = []) :
    "## Merge Requests" ∉ generateMarkdownLines data cfg := by
  intro hmem
  simp [generateMarkdownLines, h] at hmem
  rcases hmem with h1 | h2 | ⟨_, a, _, h3⟩
  · refine ne_of_take2 _ _ ?_ h1.symm
    rw [title_take2]
    decide
  · by_cases hc : data.commits = []
    · simp [hc] at h2
    · simp [hc] at h2
      obtain ⟨a, _, h3⟩ := h2
      obtain ⟨t, ht⟩ := commitLine_shape cfg data.jiraIssues a
      rw [ht] at h3
      exact append_take2_ne "- " t _ (by decide) (by decide) h3
  · obtain ⟨t, ht⟩ := summaryLine_shape a
    rw [ht] at h3
    exact append_take2_ne "- " t _ (by decide) (by decide) h3

/-- With an empty git summary, the commit-summary heading is nowhere in the output. -/
theorem summary_section_absent (data : WeeklyData) (cfg : RenderConfig)
    (h : data.gitSummary = []) :
    "## 代码提交摘要" ∉ generateMarkdownLines data cfg := by
  intro hmem
  simp [generateMarkdownLines, h] at hmem
  rcases hmem with h1 | h2 | ⟨_, a, _, h3⟩
  · refine ne_of_take2 _ _ ?_ h1.symm
    rw [title_take2]
    decide
  · by_cases hc : data.commits = []
    · simp [hc] at h2
    · simp [hc] at h2
      obtain ⟨a, _, h3⟩ := h2
      obtain ⟨t, ht⟩ := commitLine_shape cfg data.jiraIssues a
      rw [ht] at h3
      exact append_take2_ne "- " t _ (by decide) (by decide) h3
  · obtain ⟨t, ht⟩ := mrTableRow_shape a
    rw [ht] at h3
    exact append_take2_ne "| [" t _ (by decide) (by decide) h3

/-- Each listed MR contributes its table row to the output. -/
theorem mrTableRow_mem (data : WeeklyData) (cfg : RenderConfig) (mr : MRItem)
    (h : mr ∈ data.mrs) : mrTableRow mr ∈ generateMarkdownLines data cfg := by
  have hne : data.mrs ≠ [] := by
    intro hz
    rw [hz] at h
    cases h
  simp [generateMarkdownLines, hne]
  exact Or.inr (Or.inr (Or.inr (Or.inr (Or.inr (Or.inr (Or.inr (Or.inr
    (Or.inr (Or.inl ⟨mr, h, rfl⟩)))))))))

/-- C10: `generateMarkdown` omits the Merge Requests table exactly when the
snapshot has no MRs and omits the per-repository commit summary exactly when
the git summary is empty, while every output carries the date-range title,
the completed-this-period heading (with the fixed placeholder when there are
no commits), and the free-text supplementary section with its HTML-comment
prompt. -/
theorem markdown_sections (data : WeeklyData) (cfg : RenderConfig) :
    (data.mrs = [] → "## Merge Requests" ∉ generateMarkdownLines data cfg) ∧
    (data.mrs ≠ [] → "## Merge Requests" ∈ generateMarkdownLines data cfg) ∧
    (data.gitSummary = [] → "## 代码提交摘要" ∉ generateMarkdownLines data cfg) ∧
    (data.gitSummary ≠ [] → "## 代码提交摘要" ∈ generateMarkdownLines data cfg) ∧
    ("# 周报 " ++ formatDate data.dateRange.fromDate ++ " - " ++
      formatDate data.dateRange.toDate) ∈ generateMarkdownLines data cfg ∧
    "## 本周完成" ∈ generateMarkdownLines data cfg ∧
    (data.commits = [] → "_本周无提交记录_" ∈ generateMarkdownLines data cfg) ∧
    "## 补充内容" ∈ generateMarkdownLines data cfg ∧
    "<!-- 在这里添加你的补充内容，如：下周计划、遇到的问题、需要协调的事项等 -->" ∈
      generateMarkdownLines data cfg := by
  refine ⟨mr_section_absent data cfg, ?_, summary_section_absent data cfg, ?_, ?_, ?_, ?_, ?_, ?_⟩
  · intro h
    simp [generateMarkdownLines, h]
  · intro h
    simp [generateMarkdownLines, h]
  · simp [generateMarkdownLines]
  · simp [generateMarkdownLines]
  · intro h
    simp [generateMarkdownLines, h]
  · simp [generateMarkdownLines]
  · simp [generateMarkdownLines]

/-- C7 counterexample: the code switches on `opened`, so the state string
`open` falls through to the default emoji ⬜, not 🔵. -/
theorem state_emoji_counterexample :
    stateEmoji "open" = "⬜" ∧ ("⬜" : String) ≠ "🔵" ∧
      mrTableRow mrStateOpen = "| [t](u6) | ⬜ Open | main |" :=
  ⟨rfl, by decide, rfl⟩

/-- C7 amended: each rendered work-item row carries the emoji of its state
under the mapping merged → ✅, opened → 🔵, closed → 🔴, anything else → ⬜. -/
theorem state_emoji_mapping (data : WeeklyData) (cfg : RenderConfig) (mr : MRItem)
    (h : mr ∈ data.mrs) :
    mrTableRow mr ∈ generateMarkdownLines data cfg ∧
      stateEmoji "merged" = "✅" ∧ stateEmoji "opened" = "🔵" ∧
      stateEmoji "closed" = "🔴" ∧
      ∀ s, s ≠ "merged" → s ≠ "opened" → s ≠ "closed" → stateEmoji s = "⬜" := by
  refine ⟨mrTableRow_mem data cfg mr h, rfl, rfl, rfl, ?_⟩
  intro s h1 h2 h3
  simp [stateEmoji, h1, h2, h3]

/-- C7 witness: the concrete snapshot with one open MR. -/
theorem state_emoji_mapping_witness :
    mrTableRow mrOpen ∈ generateMarkdownLines weeklyW renderCfgW ∧
      stateEmoji "merged" = "✅" ∧ stateEmoji "opened" = "🔵" ∧
      stateEmoji "closed" = "🔴" ∧
      ∀ s, s ≠ "merged" → s ≠ "opened" → s ≠ "closed" → stateEmoji s = "⬜" :=
  state_emoji_mapping weeklyW renderCfgW mrOpen (List.mem_singleton_self mrOpen)

end WeeklyReport
